import Mathlib

/-!
Verification development for the open-muse iterative parallel decoding core
(`src/muse/modeling_transformer.py`: `MaskGitTransformer.generate` and
`MaskGitTransformer.generate2`, plus the call site in
`src/muse/pipeline_muse.py`).

The token grids, the round loop, the classifier-free-guidance mixing, the
class-token prepend/strip, the mask-length clamping and the temperature
annealing are translated directly from the source.  The transformer forward
pass and `torch.softmax` are kept abstract (real-valued `exp` is not
representable in `ℚ`): they are parameters of the model, constrained only by
the shape facts the proofs use.  The helpers imported by the source from
`muse/sampling.py` (`cosine_schedule`, `gumbel_sample`, `mask_by_random_topk`,
`top_k`) are not part of the given sources; they are modelled from the spec
where needed and marked as such.
-/

namespace Muse

/-- A batch of token rows: `input_ids` has shape `(batch, seq)`; each cell is a
vocabulary index (`Nat`). -/
abbrev Grid := List (List Nat)

/-- Per-item, per-position, per-channel logits: shape `(batch, seq, vocab)`. -/
abbrev Logits := List (List (List ℚ))

/-- Configuration fields of `MaskGitTransformer` used by `generate`/`generate2`:
`vocab_size`, `codebook_size`, `num_vq_tokens`. -/
structure Cfg where
  vocabSize : Nat
  codebookSize : Nat
  numVqTokens : Nat
  deriving DecidableEq, Repr

/-- The reserved mask id, `self.config.mask_token_id = vocab_size - 1`
(registered in `MaskGitTransformer.__init__`). -/
def Cfg.maskTokenId (c : Cfg) : Nat := c.vocabSize - 1

/-- The all-masked grid `torch.ones(shape) * mask_token_id` of shape
`(batch, num_vq_tokens)`. -/
def allMaskGrid (c : Cfg) (batch : Nat) : Grid :=
  List.replicate batch (List.replicate c.numVqTokens c.maskTokenId)

/-- Python exceptions that the decode entry points can raise. -/
inductive PyErr where
  /-- an operation was applied to `None` (`TypeError`/`AttributeError`). -/
  | noneType
  /-- a local variable was referenced before assignment (`UnboundLocalError`). -/
  | unboundLocal
  deriving DecidableEq, Repr

/-- List map that also passes the element index, used where the source indexes
the ambient random stream by batch item and position. -/
def mapWithIdx (f : Nat → α → β) : Nat → List α → List β
  | _, [] => []
  | i, x :: xs => f i x :: mapWithIdx f (i + 1) xs

/-- Elementwise select, `torch.where(mask, a, b)`. -/
def whereList : List Bool → List α → List α → List α
  | m :: ms, x :: xs, y :: ys => (if m then x else y) :: whereList ms xs ys
  | _, _, _ => []

/-- Three-list zip used for batch-level `torch.where`. -/
def zipWith3 (f : α → β → γ → δ) : List α → List β → List γ → List δ
  | a :: as, b :: bs, g :: gs => f a b g :: zipWith3 f as bs gs
  | _, _, _ => []

/-- Python `int()` truncation toward zero of a rational. -/
def truncInt (q : ℚ) : Int := if 0 ≤ q then ⌊q⌋ else -⌊-q⌋

/-- A zero-valued conditioning embedding of the same shape,
`torch.zeros_like(encoder_hidden_states)` per batch item. -/
def zerosLike (e : List ℚ) : List ℚ := e.map fun _ => 0

/-- Classifier-free guidance mixing, translated from
`logits = uncond_logits + guidance_scale * (cond_logits - uncond_logits)`
(lines 602 and 672 of `modeling_transformer.py`), elementwise over
equally-shaped tensors. -/
def mixLogits (scale : ℚ) (cond uncond : List ℚ) : List ℚ :=
  List.zipWith (fun cv uv => uv + scale * (cv - uv)) cond uncond

/-- One categorical draw, `torch.multinomial(probs, 1)`, driven by a uniform
sample `r`: the first index whose cumulative mass exceeds `r` (clamped to the
last index). -/
def multinomialIdx : List ℚ → ℚ → Nat
  | [], _ => 0
  | [_], _ => 0
  | p :: ps, r => if r < p then 0 else multinomialIdx ps (r - p) + 1

/-- The abstract components a generation call consumes: the transformer forward
pass per batch item, `torch.softmax` along the channel dim, the `top_k` filter
from the (absent) `muse/sampling.py`, and the ambient global RNG streams that
`torch.multinomial` / gumbel noise consume, indexed by `(step, item, pos)` (and
channel for `gnoise`). -/
structure Env where
  fwd : List Nat → Option (List ℚ) → List (List ℚ)
  smax : List ℚ → List ℚ
  topkFilter : ℚ → List ℚ → List ℚ
  mrand : Nat → Nat → Nat → ℚ
  mnoise : Nat → Nat → Nat → ℚ
  gnoise : Nat → Nat → Nat → Nat → ℚ

/-- Shape facts about the abstract components: the forward pass returns one
logit row per input position, each over the full vocabulary; softmax and the
`top_k` filter preserve length. -/
structure EnvOK (c : Cfg) (env : Env) : Prop where
  fwd_len : ∀ row e, (env.fwd row e).length = row.length
  fwd_rows : ∀ row e l, l ∈ env.fwd row e → l.length = c.vocabSize
  smax_len : ∀ l, (env.smax l).length = l.length
  topk_len : ∀ t l, (env.topkFilter t l).length = l.length

/-- The per-round logits computation shared verbatim by `generate`
(lines 595-605) and `generate2` (lines 665-675): if text conditioning is
present and `guidance_scale > 0`, run the forward pass on the conditional and
on the zeroed embedding, truncate both to the first `codebook_size` channels,
and mix; otherwise run a single forward pass with the given conditioning and
truncate. -/
def computeLogits (c : Cfg) (env : Env) (scale : ℚ) (ehs : Option (List (List ℚ)))
    (inputIds : Grid) : Logits :=
  match ehs with
  | some es =>
    if 0 < scale then
      List.zipWith (fun row e =>
        List.zipWith (mixLogits scale)
          ((env.fwd row (some e)).map (List.take c.codebookSize))
          ((env.fwd row (some (zerosLike e))).map (List.take c.codebookSize)))
        inputIds es
    else
      List.zipWith (fun row e => (env.fwd row (some e)).map (List.take c.codebookSize))
        inputIds es
  | none =>
    inputIds.map (fun row => (env.fwd row none).map (List.take c.codebookSize))

/-- The in-place shift `class_ids += self.config.codebook_size` performed by
both `generate` (line 572) and `generate2` (line 653) on the caller's tensor
before the round loop. -/
def classIdsAfter (c : Cfg) (classIds : List Nat) : List Nat :=
  classIds.map (· + c.codebookSize)

/-- Prepend the shifted class token at sequence position 0,
`torch.cat([class_ids[:, None], input_ids], dim=1)`. -/
def prependClass (shifted : List Nat) (g : Grid) : Grid :=
  List.zipWith (fun cid row => cid :: row) shifted g

/-- Strip the leading class-token position (`x[:, 1:]`) when a class id was
prepended; identity otherwise. -/
def stripClassTok (cls : Option α) (xs : List (List β)) : List (List β) :=
  match cls with
  | some _ => xs.map List.tail
  | none => xs

/-- Grid handed to the forward pass: the shifted class token is prepended when
class conditioning is present (lines 591-592 and 661-662). -/
def withClassTok (shifted : Option (List Nat)) (g : Grid) : Grid :=
  match shifted with
  | some sc => prependClass sc g
  | none => g

/-- Modelled from the spec: the ranking core of `mask_by_random_topk` from the
absent `muse/sampling.py` (spec section 4.3, Policy B): the number of positions
whose perturbed confidence is strictly below position `i`'s, breaking ties by
position index. -/
def rankAsc (xs : List ℚ) (i : Nat) : Nat :=
  ((List.range xs.length).filter (fun j =>
    decide (xs.getD j 0 < xs.getD i 0) || (decide (xs.getD j 0 = xs.getD i 0) && decide (j < i)))).length

/-- Modelled from the spec: `mask_by_random_topk` selection — mask exactly the
`k` positions of lowest perturbed confidence (spec section 4.3, Policy B;
tie-breaking by position index as the spec permits). -/
def lowestKMask (k : Nat) (xs : List ℚ) : List Bool :=
  (List.range xs.length).map (fun i => decide (rankAsc xs i < k))

/-- Largest finite `float32`, `torch.finfo(selected_probs.dtype).max`, used by
`generate2` to pin already-decided positions' confidence (line 699). -/
def finfoMax : ℚ := (2 ^ 24 - 1) * 2 ^ 104

/-- Per-round observables of `generate2` (Policy B): the grid handed to the
forward pass (class token included), the truncated stripped logits, the
post-update `sampled_ids`, the per-item count of masked positions entering the
round, the schedule term `floor(seq_len * mask_ratio)`, the per-item clamped
`mask_len`, the progress ratio, the temperature handed to
`mask_by_random_topk`, and the re-masked grid for the next round. -/
structure Round2 where
  fwdInput : Grid
  logits : Logits
  sampled : Grid
  unknownCounts : List Nat
  schedTokens : Int
  maskLens : List Int
  ratio : ℚ
  temperature : ℚ
  nextGrid : Grid
  deriving DecidableEq, Repr

/-- One round of `generate2` (lines 659-712), translated statement by
statement.  The gumbel perturbation inside `mask_by_random_topk` is modelled
from the spec as `selectedProbs + temperature * noise` (spec section 4.3);
`torch.multinomial` is driven by the ambient stream `env.mrand`. -/
def gen2Round (c : Cfg) (env : Env) (sched : ℚ → ℚ) (scale : ℚ)
    (ehs : Option (List (List ℚ))) (shifted : Option (List Nat)) (T : Nat)
    (step : Nat) (grid : Grid) (temp : ℚ) : Round2 :=
  let withClass := withClassTok shifted grid
  let logitsAll := computeLogits c env scale ehs withClass
  let grid1 := stripClassTok shifted withClass
  let logits1 := stripClassTok shifted logitsAll
  let sampled0 : Grid := mapWithIdx (fun b item =>
    mapWithIdx (fun p lrow => multinomialIdx (env.smax lrow) (env.mrand step b p)) 0 item) 0 logits1
  let unknown : List (List Bool) := grid1.map (fun row => row.map (fun v => v == c.maskTokenId))
  let sampled : Grid := zipWith3 whereList unknown sampled0 grid1
  let ratio : ℚ := ((step : ℚ) + 1) / (T : ℚ)
  let maskRatio := sched ratio
  let probs : Logits := logits1.map (fun item => item.map env.smax)
  let selectedProbs : List (List ℚ) :=
    List.zipWith (fun item srow => List.zipWith (fun prow sid => prow.getD sid 0) item srow)
      probs sampled
  let pinned : List (List ℚ) :=
    List.zipWith (fun urow selrow => whereList urow selrow (selrow.map fun _ => finfoMax))
      unknown selectedProbs
  let unknownCounts : List Nat := unknown.map (fun row => row.count true)
  let schedTokens : Int := ⌊(c.numVqTokens : ℚ) * maskRatio⌋
  let maskLens : List Int := unknownCounts.map (fun u => max 1 (min (Int.ofNat u - 1) schedTokens))
  let temp2 := temp * (1 - ratio)
  let masking : List (List Bool) := mapWithIdx (fun b prow =>
    lowestKMask (maskLens.getD b 1).toNat
      (mapWithIdx (fun p s => s + temp2 * env.mnoise step b p) 0 prow)) 0 pinned
  let nextGrid : Grid :=
    List.zipWith (fun mrow srow => whereList mrow (srow.map fun _ => c.maskTokenId) srow)
      masking sampled
  { fwdInput := withClass, logits := logits1, sampled := sampled,
    unknownCounts := unknownCounts, schedTokens := schedTokens, maskLens := maskLens,
    ratio := ratio, temperature := temp2, nextGrid := nextGrid }

/-- The `for step in range(timesteps)` loop of `generate2`; `rem` counts the
remaining rounds, `step` the current index. -/
def gen2Loop (c : Cfg) (env : Env) (sched : ℚ → ℚ) (scale : ℚ)
    (ehs : Option (List (List ℚ))) (shifted : Option (List Nat)) (T : Nat) :
    Nat → Nat → Grid → ℚ → List Round2
  | 0, _, _, _ => []
  | rem + 1, step, grid, temp =>
    let r := gen2Round c env sched scale ehs shifted T step grid temp
    r :: gen2Loop c env sched scale ehs shifted T rem (step + 1) r.nextGrid r.temperature

/-- The full round trace of a `generate2` call starting from `grid0` at the
caller-supplied temperature. -/
def generate2Rounds (c : Cfg) (env : Env) (sched : ℚ → ℚ) (scale : ℚ)
    (ehs : Option (List (List ℚ))) (shifted : Option (List Nat)) (T : Nat)
    (grid0 : Grid) (temp0 : ℚ) : List Round2 :=
  gen2Loop c env sched scale ehs shifted T T 0 grid0 temp0

/-- Computing `batch_size = len(class_ids) if class_ids is not None else
encoder_hidden_states.shape[0]` (lines 567/648); both `None` raises. -/
def batchOf (classIds : Option (List Nat)) (ehs : Option (List (List ℚ))) : Except PyErr Nat :=
  match classIds, ehs with
  | some l, _ => .ok l.length
  | none, some es => .ok es.length
  | none, none => .error .noneType

/-- The observable outcome of a `generate2` call: the returned value (or the
raised exception) and the caller's `class_ids` tensor content after the call
(the entry code mutates it in place). -/
structure Gen2Out where
  out : Except PyErr Grid
  classIdsFinal : Option (List Nat)
  deriving Repr

/-- Entry point `MaskGitTransformer.generate2` (lines 629-714).  `generator`
models the keyword argument swallowed by `**kwargs`; the body never reads it.
The source's initialization is kept as written: `input_ids` is overwritten
with the all-mask grid only when it `is not None` (line 656), so the `None`
default crashes in the first round; with `timesteps = 0` the function returns
the never-assigned `sampled_ids`. -/
def generate2 (c : Cfg) (env : Env) (inputIds : Option Grid)
    (classIds : Option (List Nat)) (ehs : Option (List (List ℚ))) (temperature : ℚ)
    (timesteps : Nat) (guidanceScale : ℚ) (sched : ℚ → ℚ)
    (generator : Option Nat) : Gen2Out :=
  match batchOf classIds ehs with
  | .error e => { out := .error e, classIdsFinal := classIds }
  | .ok batch =>
    let shifted := classIds.map (classIdsAfter c)
    if timesteps = 0 then { out := .error .unboundLocal, classIdsFinal := shifted }
    else
      match inputIds with
      | none => { out := .error .noneType, classIdsFinal := shifted }
      | some _ =>
        let rounds := generate2Rounds c env sched guidanceScale ehs shifted timesteps
          (allMaskGrid c batch) temperature
        match rounds.getLast? with
        | some r => { out := .ok r.sampled, classIdsFinal := shifted }
        | none => { out := .error .unboundLocal, classIdsFinal := shifted }

/-- Ranking for `scores.topk(num_token_masked)` in `generate` (line 587): the
number of positions scoring strictly above position `i`, ties broken by
position index (torch returns the lower index first among equals). -/
def rankDesc (xs : List ℚ) (i : Nat) : Nat :=
  ((List.range xs.length).filter (fun j =>
    decide (xs.getD i 0 < xs.getD j 0) || (decide (xs.getD j 0 = xs.getD i 0) && decide (j < i)))).length

/-- Membership mask of the `k` highest-scoring positions, used to scatter the
mask token into `input_ids` (lines 587-588). -/
def topKMaskDesc (k : Nat) (xs : List ℚ) : List Bool :=
  (List.range xs.length).map (fun i => decide (rankDesc xs i < k))

/-- Value of `torch.linspace(0, 1, T)` at index `r`: `linspace(0,1,1) = [0.]`,
otherwise `r / (T - 1)`. -/
def linspace01 (T r : Nat) : ℚ := if T ≤ 1 then 0 else (r : ℚ) / ((T : ℚ) - 1)

/-- First index of the maximum entry, for gumbel-max sampling. -/
def argmaxIdx : List ℚ → Nat
  | [] => 0
  | [_] => 0
  | x :: y :: xs =>
    if x < (y :: xs).getD (argmaxIdx (y :: xs)) 0 then argmaxIdx (y :: xs) + 1 else 0

/-- Per-round observables of `generate` (Policy A): the grid handed to the
forward pass, the truncated stripped logits, the re-mask count from the
schedule, the annealed sampling temperature, the updated grid, and the updated
confidence scores. -/
structure Round1 where
  fwdInput : Grid
  logits : Logits
  numMasked : Nat
  temperature : ℚ
  grid : Grid
  scores : List (List ℚ)
  deriving Repr

/-- One round of `generate` (lines 581-625), translated statement by
statement: re-mask the `num_token_masked` highest-score positions, prepend the
class token, compute (possibly guidance-mixed) truncated logits, strip the
class position, filter with `top_k`, gumbel-sample at the annealed
temperature, fill currently-masked positions with the predictions, and rescore
every position by `1 - softmax probability` of its prediction.
`gumbel_sample` is from the absent `muse/sampling.py` and is modelled from the
spec (gumbel-max: argmax of the logits perturbed by temperature-scaled noise,
spec sections 4.3-4.4). -/
def gen1Round (c : Cfg) (env : Env) (sched : ℚ → ℚ) (scale : ℚ)
    (ehs : Option (List (List ℚ))) (shifted : Option (List Nat)) (thres : ℚ)
    (startTemp : ℚ) (T : Nat) (step : Nat) (grid : Grid)
    (scores : List (List ℚ)) : Round1 :=
  let randMaskProb := sched (linspace01 T step)
  let numMasked : Nat := (max (truncInt (randMaskProb * (c.numVqTokens : ℚ))) 1).toNat
  let gridM : Grid := List.zipWith (fun srow row =>
    whereList (topKMaskDesc numMasked srow) (row.map fun _ => c.maskTokenId) row) scores grid
  let withClass := withClassTok shifted gridM
  let logitsAll := computeLogits c env scale ehs withClass
  let grid1 := stripClassTok shifted withClass
  let logits1 := stripClassTok shifted logitsAll
  let filtered : Logits := logits1.map (fun item => item.map (env.topkFilter thres))
  let temp := startTemp * (((T - 1 - step : Nat) : ℚ) / (T : ℚ))
  let preds : Grid := mapWithIdx (fun b item =>
    mapWithIdx (fun p lrow =>
      argmaxIdx (mapWithIdx (fun ch l => l + temp * env.gnoise step b p ch) 0 lrow)) 0 item) 0 filtered
  let isMask : List (List Bool) := grid1.map (fun row => row.map (fun v => v == c.maskTokenId))
  let grid2 : Grid := zipWith3 whereList isMask preds grid1
  let probs : Logits := logits1.map (fun item => item.map env.smax)
  let scores2 : List (List ℚ) := List.zipWith (fun item prow =>
    List.zipWith (fun lrow pid => 1 - lrow.getD pid 0) item prow) probs preds
  { fwdInput := withClass, logits := logits1, numMasked := numMasked,
    temperature := temp, grid := grid2, scores := scores2 }

/-- The round loop of `generate` over
`zip(torch.linspace(0, 1, timesteps), reversed(range(timesteps)))`. -/
def gen1Loop (c : Cfg) (env : Env) (sched : ℚ → ℚ) (scale : ℚ)
    (ehs : Option (List (List ℚ))) (shifted : Option (List Nat)) (thres : ℚ)
    (startTemp : ℚ) (T : Nat) : Nat → Nat → Grid → List (List ℚ) → List Round1
  | 0, _, _, _ => []
  | rem + 1, step, grid, scores =>
    let r := gen1Round c env sched scale ehs shifted thres startTemp T step grid scores
    r :: gen1Loop c env sched scale ehs shifted thres startTemp T rem (step + 1) r.grid r.scores

/-- The full round trace of a `generate` call: scores start at
`torch.zeros(shape)` (line 577). -/
def generateRounds (c : Cfg) (env : Env) (sched : ℚ → ℚ) (scale : ℚ)
    (ehs : Option (List (List ℚ))) (shifted : Option (List Nat)) (thres : ℚ)
    (startTemp : ℚ) (T : Nat) (grid0 : Grid) (batch : Nat) : List Round1 :=
  gen1Loop c env sched scale ehs shifted thres startTemp T T 0 grid0
    (List.replicate batch (List.replicate c.numVqTokens (0 : ℚ)))

/-- The observable outcome of a `generate` call: the returned value (`None`
when `input_ids` was `None` and the loop never ran) or the raised exception,
plus the caller's `class_ids` tensor content after the call. -/
structure Gen1Out where
  out : Except PyErr (Option Grid)
  classIdsFinal : Option (List Nat)
  deriving Repr

/-- Entry point `MaskGitTransformer.generate` (lines 551-627).  The source's
initialization is kept as written: `input_ids` is overwritten with the
all-mask grid only when it `is not None` (lines 575-576), so the `None`
default crashes at the first `input_ids.scatter`; with `timesteps = 0` the
loop body never runs and the current `input_ids` is returned unvalidated. -/
def generate (c : Cfg) (env : Env) (inputIds : Option Grid)
    (classIds : Option (List Nat)) (ehs : Option (List (List ℚ))) (temperature : ℚ)
    (thres : ℚ) (timesteps : Nat) (guidanceScale : ℚ) (sched : ℚ → ℚ) : Gen1Out :=
  match batchOf classIds ehs with
  | .error e => { out := .error e, classIdsFinal := classIds }
  | .ok batch =>
    let shifted := classIds.map (classIdsAfter c)
    let grid0 : Option Grid := if inputIds.isSome then some (allMaskGrid c batch) else none
    if timesteps = 0 then { out := .ok grid0, classIdsFinal := shifted }
    else
      match grid0 with
      | none => { out := .error .noneType, classIdsFinal := shifted }
      | some g0 =>
        let rounds := generateRounds c env sched guidanceScale ehs shifted thres temperature
          timesteps g0 batch
        match rounds.getLast? with
        | some r => { out := .ok (some r.grid), classIdsFinal := shifted }
        | none => { out := .ok (some g0), classIdsFinal := shifted }

example : mixLogits 1 [3, 4] [5, 6] = [3, 4] := by norm_num [mixLogits]
example : multinomialIdx [1/2, 1/2] (3/4) = 1 := by norm_num [multinomialIdx]
example : truncInt 2 = 2 := by norm_num [truncInt, Int.floor_eq_iff]
example : lowestKMask 1 [1/2, 1/2] = [true, false] := by
  norm_num [lowestKMask, rankAsc, List.range_succ]

/-- Every token row of a grid holds only valid codebook indices. -/
def GridLT (c : Cfg) (g : Grid) : Prop := ∀ row ∈ g, ∀ v ∈ row, v < c.codebookSize

/-- Every token row holds valid codebook indices or the mask token: the
invariant maintained between rounds. -/
def GridLE (c : Cfg) (g : Grid) : Prop :=
  ∀ row ∈ g, ∀ v ∈ row, v < c.codebookSize ∨ v = c.maskTokenId

lemma mem_whereList {m : List Bool} {xs ys : List α} {a : α}
    (h : a ∈ whereList m xs ys) : a ∈ xs ∨ a ∈ ys := by
  induction m generalizing xs ys with
  | nil => simp [whereList] at h
  | cons b bs ih =>
    match xs, ys with
    | [], _ => simp [whereList] at h
    | _ :: _, [] => simp [whereList] at h
    | x :: xt, y :: yt =>
      simp only [whereList, List.mem_cons] at h
      rcases h with h | h
      · by_cases hb : b = true
        · subst hb; simp at h; exact Or.inl (by simp [h])
        · simp [Bool.eq_false_iff.mpr hb] at h; exact Or.inr (by simp [h])
      · rcases ih h with h' | h'
        · exact Or.inl (List.mem_cons_of_mem _ h')
        · exact Or.inr (List.mem_cons_of_mem _ h')

lemma mem_zipWith {f : α → β → γ} {l₁ : List α} {l₂ : List β} {a : γ}
    (h : a ∈ List.zipWith f l₁ l₂) : ∃ x ∈ l₁, ∃ y ∈ l₂, a = f x y := by
  induction l₁ generalizing l₂ with
  | nil => simp at h
  | cons x xt ih =>
    match l₂ with
    | [] => simp at h
    | y :: yt =>
      simp only [List.zipWith_cons_cons, List.mem_cons] at h
      rcases h with h | h
      · exact ⟨x, List.mem_cons_self _ _, y, List.mem_cons_self _ _, h⟩
      · obtain ⟨x', hx', y', hy', he⟩ := ih h
        exact ⟨x', List.mem_cons_of_mem _ hx', y', List.mem_cons_of_mem _ hy', he⟩

lemma mem_zipWith3 {f : α → β → γ → δ} {l₁ : List α} {l₂ : List β} {l₃ : List γ} {a : δ}
    (h : a ∈ zipWith3 f l₁ l₂ l₃) :
    ∃ x ∈ l₁, ∃ y ∈ l₂, ∃ z ∈ l₃, a = f x y z := by
  induction l₁ generalizing l₂ l₃ with
  | nil => simp [zipWith3] at h
  | cons x xt ih =>
    match l₂, l₃ with
    | [], _ => simp [zipWith3] at h
    | _ :: _, [] => simp [zipWith3] at h
    | y :: yt, z :: zt =>
      simp only [zipWith3, List.mem_cons] at h
      rcases h with h | h
      · exact ⟨x, List.mem_cons_self _ _, y, List.mem_cons_self _ _, z, List.mem_cons_self _ _, h⟩
      · obtain ⟨x', hx', y', hy', z', hz', he⟩ := ih h
        exact ⟨x', List.mem_cons_of_mem _ hx', y', List.mem_cons_of_mem _ hy',
          z', List.mem_cons_of_mem _ hz', he⟩

lemma mem_mapWithIdx {f : Nat → α → β} {i : Nat} {xs : List α} {b : β}
    (h : b ∈ mapWithIdx f i xs) : ∃ j x, x ∈ xs ∧ b = f j x := by
  induction xs generalizing i with
  | nil => simp [mapWithIdx] at h
  | cons x xt ih =>
    simp only [mapWithIdx, List.mem_cons] at h
    rcases h with h | h
    · exact ⟨i, x, List.mem_cons_self _ _, h⟩
    · obtain ⟨j, x', hx', he⟩ := ih h
      exact ⟨j, x', List.mem_cons_of_mem _ hx', he⟩

lemma length_mapWithIdx (f : Nat → α → β) (i : Nat) (xs : List α) :
    (mapWithIdx f i xs).length = xs.length := by
  induction xs generalizing i with
  | nil => rfl
  | cons x xt ih => simp [mapWithIdx, ih]

lemma length_whereList (m : List Bool) (xs ys : List α) :
    (whereList m xs ys).length = min m.length (min xs.length ys.length) := by
  induction m generalizing xs ys with
  | nil => simp [whereList]
  | cons b bs ih =>
    match xs, ys with
    | [], _ => simp [whereList]
    | _ :: _, [] => simp [whereList]
    | x :: xt, y :: yt =>
      simp only [whereList, List.length_cons, ih]
      omega

lemma length_zipWith3 (f : α → β → γ → δ) (l₁ : List α) (l₂ : List β) (l₃ : List γ) :
    (zipWith3 f l₁ l₂ l₃).length = min l₁.length (min l₂.length l₃.length) := by
  induction l₁ generalizing l₂ l₃ with
  | nil => simp [zipWith3]
  | cons x xt ih =>
    match l₂, l₃ with
    | [], _ => simp [zipWith3]
    | _ :: _, [] => simp [zipWith3]
    | y :: yt, z :: zt =>
      simp only [zipWith3, List.length_cons, ih]
      omega

lemma length_lowestKMask (k : Nat) (xs : List ℚ) : (lowestKMask k xs).length = xs.length := by
  simp [lowestKMask]

lemma length_topKMaskDesc (k : Nat) (xs : List ℚ) : (topKMaskDesc k xs).length = xs.length := by
  simp [topKMaskDesc]

lemma multinomialIdx_lt (ps : List ℚ) (hps : ps ≠ []) (r : ℚ) :
    multinomialIdx ps r < ps.length := by
  induction ps generalizing r with
  | nil => exact absurd rfl hps
  | cons p pt ih =>
    match pt with
    | [] => simp [multinomialIdx]
    | q :: qt =>
      simp only [multinomialIdx]
      split
      · simp
      · have := ih (by simp) (r - p)
        simpa [Nat.succ_lt_succ_iff] using this

lemma argmaxIdx_lt (xs : List ℚ) (h : xs ≠ []) : argmaxIdx xs < xs.length := by
  induction xs with
  | nil => exact absurd rfl h
  | cons x xt ih =>
    match xt with
    | [] => simp [argmaxIdx]
    | y :: yt =>
      simp only [argmaxIdx]
      split
      · have := ih (by simp)
        simpa [Nat.succ_lt_succ_iff] using this
      · simp

lemma mem_of_getLast? {l : List α} {a : α} (h : l.getLast? = some a) : a ∈ l := by
  have hx : a ∈ l.getLast? := by rw [h]; exact Option.mem_some_iff.mpr rfl
  obtain ⟨hne, he⟩ := List.mem_getLast?_eq_getLast hx
  subst he
  exact List.getLast_mem hne

lemma mem_stripClassTok {cls : Option α} {xs : List (List β)} {item : List β}
    (h : item ∈ stripClassTok cls xs) : ∃ it ∈ xs, ∀ b ∈ item, b ∈ it := by
  match cls with
  | none => exact ⟨item, h, fun b hb => hb⟩
  | some _ =>
    obtain ⟨it, hit, he⟩ := List.mem_map.mp h
    exact ⟨it, hit, fun b hb => (List.tail_sublist it).subset (he ▸ hb)⟩

lemma length_stripClassTok (cls : Option α) (xs : List (List β)) :
    (stripClassTok cls xs).length = xs.length := by
  match cls with
  | none => rfl
  | some _ => simp [stripClassTok]

lemma mixLogits_length (scale : ℚ) (cond uncond : List ℚ) :
    (mixLogits scale cond uncond).length = min cond.length uncond.length := by
  simp [mixLogits]

lemma computeLogits_row_len {c : Cfg} {env : Env} (hok : EnvOK c env)
    (hv : c.codebookSize ≤ c.vocabSize) (scale : ℚ) (ehs : Option (List (List ℚ)))
    (g : Grid) : ∀ item ∈ computeLogits c env scale ehs g, ∀ lrow ∈ item,
      lrow.length = c.codebookSize := by
  intro item hitem lrow hlrow
  match ehs with
  | none =>
    simp only [computeLogits] at hitem
    obtain ⟨row, _, he⟩ := List.mem_map.mp hitem
    subst he
    obtain ⟨l, hl, he⟩ := List.mem_map.mp hlrow
    subst he
    rw [List.length_take, hok.fwd_rows _ _ _ hl]
    omega
  | some es =>
    simp only [computeLogits] at hitem
    split at hitem
    · obtain ⟨row, _, e, _, he⟩ := mem_zipWith hitem
      subst he
      obtain ⟨a, ha, b, hb, he⟩ := mem_zipWith hlrow
      subst he
      obtain ⟨la, hla, hea⟩ := List.mem_map.mp ha
      obtain ⟨lb, hlb, heb⟩ := List.mem_map.mp hb
      subst hea; subst heb
      rw [mixLogits_length, List.length_take, List.length_take,
        hok.fwd_rows _ _ _ hla, hok.fwd_rows _ _ _ hlb]
      omega
    · obtain ⟨row, _, e, _, he⟩ := mem_zipWith hitem
      subst he
      obtain ⟨l, hl, he⟩ := List.mem_map.mp hlrow
      subst he
      rw [List.length_take, hok.fwd_rows _ _ _ hl]
      omega

lemma whereList_mask_lt {cb M : Nat} :
    ∀ (s g : List Nat), (∀ v ∈ s, v < cb) → (∀ v ∈ g, v < cb ∨ v = M) →
    ∀ v ∈ whereList (g.map (fun x => x == M)) s g, v < cb := by
  intro s g
  induction g generalizing s with
  | nil => intro _ _ v hv; simp [whereList] at hv
  | cons gh gt ih =>
    intro hs hg v hv
    cases s with
    | nil => simp [whereList] at hv
    | cons sh st =>
      simp only [List.map_cons, whereList, List.mem_cons] at hv
      rcases hv with hv | hv
      · by_cases hgh : gh = M
        · simp only [hgh, beq_self_eq_true, if_true] at hv
          exact hv ▸ hs sh (List.mem_cons_self _ _)
        · simp only [beq_eq_false_iff_ne.mpr hgh, Bool.false_eq_true, if_false] at hv
          rcases hg gh (List.mem_cons_self _ _) with h' | h'
          · omega
          · exact absurd h' hgh
      · exact ih st (fun x hx => hs x (List.mem_cons_of_mem _ hx))
          (fun x hx => hg x (List.mem_cons_of_mem _ hx)) v hv

lemma zip3_where_lt {cb M : Nat} :
    ∀ (g s : List (List Nat)),
    (∀ row ∈ s, ∀ v ∈ row, v < cb) → (∀ row ∈ g, ∀ v ∈ row, v < cb ∨ v = M) →
    ∀ row ∈ zipWith3 whereList (g.map (fun r => r.map (fun x => x == M))) s g,
    ∀ v ∈ row, v < cb := by
  intro g
  induction g with
  | nil => intro s _ _ row hrow; simp [zipWith3] at hrow
  | cons gh gt ih =>
    intro s hs hg row hrow
    cases s with
    | nil => simp [zipWith3] at hrow
    | cons sh st =>
      simp only [List.map_cons, zipWith3, List.mem_cons] at hrow
      rcases hrow with hrow | hrow
      · subst hrow
        exact whereList_mask_lt sh gh (hs sh (List.mem_cons_self _ _))
          (hg gh (List.mem_cons_self _ _))
      · exact ih st (fun x hx => hs x (List.mem_cons_of_mem _ hx))
          (fun x hx => hg x (List.mem_cons_of_mem _ hx)) row hrow

lemma allMaskGrid_le (c : Cfg) (batch : Nat) : GridLE c (allMaskGrid c batch) := by
  intro row hrow v hv
  right
  rw [List.eq_of_mem_replicate hrow] at hv
  exact List.eq_of_mem_replicate hv

lemma withClassTok_strip_le {c : Cfg} (shifted : Option (List Nat)) {g : Grid}
    (h : GridLE c g) : GridLE c (stripClassTok shifted (withClassTok shifted g)) := by
  match shifted with
  | none => exact h
  | some sc =>
    intro row hrow v hv
    obtain ⟨it, hit, he⟩ := List.mem_map.mp hrow
    subst he
    obtain ⟨cid, _, r0, hr0, he2⟩ := mem_zipWith hit
    subst he2
    simp only [List.tail_cons] at hv
    exact h r0 hr0 v hv

lemma maskTokenId_ge {c : Cfg} (hv : c.codebookSize < c.vocabSize) :
    c.codebookSize ≤ c.maskTokenId := by
  unfold Cfg.maskTokenId
  omega

lemma gen2Round_values {c : Cfg} {env : Env} (hok : EnvOK c env)
    (hcb : 1 ≤ c.codebookSize) (hv : c.codebookSize < c.vocabSize)
    {sched : ℚ → ℚ} {scale : ℚ} {ehs : Option (List (List ℚ))}
    {shifted : Option (List Nat)} {T step : Nat} {grid : Grid} {temp : ℚ}
    (hgrid : GridLE c grid) :
    GridLT c (gen2Round c env sched scale ehs shifted T step grid temp).sampled ∧
    GridLE c (gen2Round c env sched scale ehs shifted T step grid temp).nextGrid := by
  have hgrid1 : GridLE c (stripClassTok shifted (withClassTok shifted grid)) :=
    withClassTok_strip_le shifted hgrid
  have hs0 : GridLT c (mapWithIdx (fun b item =>
      mapWithIdx (fun p lrow => multinomialIdx (env.smax lrow) (env.mrand step b p)) 0 item) 0
      (stripClassTok shifted (computeLogits c env scale ehs (withClassTok shifted grid)))) := by
    intro row hrow x hx
    obtain ⟨b, item, hitem, he⟩ := mem_mapWithIdx hrow
    subst he
    obtain ⟨p, lrow, hlrow, he⟩ := mem_mapWithIdx hx
    subst he
    obtain ⟨it, hit, hsub⟩ := mem_stripClassTok hitem
    have hlen : lrow.length = c.codebookSize :=
      computeLogits_row_len hok (le_of_lt hv) _ _ _ it hit lrow (hsub lrow hlrow)
    have hne : env.smax lrow ≠ [] := by
      intro hemp
      have := hok.smax_len lrow
      rw [hemp] at this
      simp only [List.length_nil] at this
      omega
    have hb := multinomialIdx_lt (env.smax lrow) hne (env.mrand step b p)
    rwa [hok.smax_len, hlen] at hb
  have hsamp : GridLT c (gen2Round c env sched scale ehs shifted T step grid temp).sampled := by
    simp only [gen2Round]
    exact zip3_where_lt _ _ hs0 hgrid1
  refine ⟨hsamp, ?_⟩
  intro row hrow x hx
  simp only [gen2Round] at hrow
  obtain ⟨mrow, _, srow, hsrow, he⟩ := mem_zipWith hrow
  subst he
  rcases mem_whereList hx with h' | h'
  · obtain ⟨_, _, he⟩ := List.mem_map.mp h'
    right
    omega
  · left
    exact hsamp srow (by simpa [gen2Round] using hsrow) x h'

lemma gen2Loop_sampled {c : Cfg} {env : Env} (hok : EnvOK c env)
    (hcb : 1 ≤ c.codebookSize) (hv : c.codebookSize < c.vocabSize)
    (sched : ℚ → ℚ) (scale : ℚ) (ehs : Option (List (List ℚ)))
    (shifted : Option (List Nat)) (T : Nat) :
    ∀ rem step (grid : Grid) (temp : ℚ), GridLE c grid →
    ∀ r ∈ gen2Loop c env sched scale ehs shifted T rem step grid temp,
      GridLT c r.sampled := by
  intro rem
  induction rem with
  | zero => intro step grid temp _ r hr; simp [gen2Loop] at hr
  | succ n ih =>
    intro step grid temp hgrid r hr
    simp only [gen2Loop, List.mem_cons] at hr
    rcases hr with hr | hr
    · subst hr
      exact (gen2Round_values hok hcb hv hgrid).1
    · exact ih (step + 1) _ _ (gen2Round_values hok hcb hv hgrid).2 r hr

lemma gen1Round_values {c : Cfg} {env : Env} (hok : EnvOK c env)
    (hcb : 1 ≤ c.codebookSize) (hv : c.codebookSize < c.vocabSize)
    {sched : ℚ → ℚ} {scale : ℚ} {ehs : Option (List (List ℚ))}
    {shifted : Option (List Nat)} {thres startTemp : ℚ} {T step : Nat} {grid : Grid}
    {scores : List (List ℚ)} (hgrid : GridLE c grid) :
    GridLT c (gen1Round c env sched scale ehs shifted thres startTemp T step grid scores).grid := by
  have hgridM : GridLE c (List.zipWith (fun srow row =>
      whereList (topKMaskDesc ((max (truncInt
        (sched (linspace01 T step) * (c.numVqTokens : ℚ))) 1).toNat) srow)
        (row.map fun _ => c.maskTokenId) row) scores grid) := by
    intro row hrow x hx
    obtain ⟨srow, _, r0, hr0, he⟩ := mem_zipWith hrow
    subst he
    rcases mem_whereList hx with h' | h'
    · obtain ⟨_, _, he⟩ := List.mem_map.mp h'
      right
      omega
    · exact hgrid r0 hr0 x h'
  have hgrid1 := withClassTok_strip_le shifted hgridM
  have hpred : GridLT c (mapWithIdx (fun b item =>
      mapWithIdx (fun p lrow =>
        argmaxIdx (mapWithIdx (fun ch l => l + startTemp * (((T - 1 - step : Nat) : ℚ) / (T : ℚ))
          * env.gnoise step b p ch) 0 lrow)) 0 item) 0
      ((stripClassTok shifted (computeLogits c env scale ehs (withClassTok shifted
        (List.zipWith (fun srow row =>
          whereList (topKMaskDesc ((max (truncInt
            (sched (linspace01 T step) * (c.numVqTokens : ℚ))) 1).toNat) srow)
            (row.map fun _ => c.maskTokenId) row) scores grid)))).map
        (fun item => item.map (env.topkFilter thres)))) := by
    intro row hrow x hx
    obtain ⟨b, item, hitem, he⟩ := mem_mapWithIdx hrow
    subst he
    obtain ⟨p, lrow, hlrow, he⟩ := mem_mapWithIdx hx
    subst he
    obtain ⟨item0, hitem0, he⟩ := List.mem_map.mp hitem
    subst he
    obtain ⟨l0, hl0, he⟩ := List.mem_map.mp hlrow
    subst he
    obtain ⟨it, hit, hsub⟩ := mem_stripClassTok hitem0
    have hlen0 : l0.length = c.codebookSize :=
      computeLogits_row_len hok (le_of_lt hv) _ _ _ it hit l0 (hsub l0 hl0)
    have hlen : (mapWithIdx (fun ch l => l + startTemp * (((T - 1 - step : Nat) : ℚ) / (T : ℚ))
        * env.gnoise step b p ch) 0 (env.topkFilter thres l0)).length = c.codebookSize := by
      rw [length_mapWithIdx, hok.topk_len, hlen0]
    have hne : mapWithIdx (fun ch l => l + startTemp * (((T - 1 - step : Nat) : ℚ) / (T : ℚ))
        * env.gnoise step b p ch) 0 (env.topkFilter thres l0) ≠ [] := by
      intro hemp
      rw [hemp] at hlen
      simp only [List.length_nil] at hlen
      omega
    have hb := argmaxIdx_lt _ hne
    rwa [hlen] at hb
  simp only [gen1Round]
  exact zip3_where_lt _ _ hpred hgrid1

lemma gen1Loop_grid {c : Cfg} {env : Env} (hok : EnvOK c env)
    (hcb : 1 ≤ c.codebookSize) (hv : c.codebookSize < c.vocabSize)
    (sched : ℚ → ℚ) (scale : ℚ) (ehs : Option (List (List ℚ)))
    (shifted : Option (List Nat)) (thres startTemp : ℚ) (T : Nat) :
    ∀ rem step (grid : Grid) (scores : List (List ℚ)), GridLE c grid →
    ∀ r ∈ gen1Loop c env sched scale ehs shifted thres startTemp T rem step grid scores,
      GridLT c r.grid := by
  intro rem
  induction rem with
  | zero => intro step grid scores _ r hr; simp [gen1Loop] at hr
  | succ n ih =>
    intro step grid scores hgrid r hr
    simp only [gen1Loop, List.mem_cons] at hr
    rcases hr with hr | hr
    · subst hr
      exact gen1Round_values hok hcb hv hgrid
    · refine ih (step + 1) _ _ ?_ r hr
      intro row hrow x hx
      exact Or.inl (gen1Round_values hok hcb hv hgrid row hrow x hx)

lemma gen1Loop_ne_nil (c : Cfg) (env : Env) (sched : ℚ → ℚ) (scale : ℚ)
    (ehs : Option (List (List ℚ))) (shifted : Option (List Nat)) (thres startTemp : ℚ)
    (T n step : Nat) (grid : Grid) (scores : List (List ℚ)) :
    gen1Loop c env sched scale ehs shifted thres startTemp T (n + 1) step grid scores ≠ [] := by
  simp [gen1Loop]

lemma gen2Loop_ne_nil (c : Cfg) (env : Env) (sched : ℚ → ℚ) (scale : ℚ)
    (ehs : Option (List (List ℚ))) (shifted : Option (List Nat))
    (T n step : Nat) (grid : Grid) (temp : ℚ) :
    gen2Loop c env sched scale ehs shifted T (n + 1) step grid temp ≠ [] := by
  simp [gen2Loop]

/-- C1: for every call to `generate` or `generate2` that runs to completion
with `timesteps ≥ 1`, the returned token grid contains zero occurrences of
`MASK_TOKEN_ID` and every returned value is a valid codebook index below
`codebook_size`: sampling always draws from logits truncated to the first
`codebook_size` channels and the terminal round fills every remaining masked
position. -/
theorem decode_terminal_complete (c : Cfg) (env : Env) (hok : EnvOK c env)
    (sched : ℚ → ℚ) (scale thres temp : ℚ) (ehs : Option (List (List ℚ)))
    (classIds : Option (List Nat)) (inputIds : Option Grid) (T : Nat) (gtor : Option Nat)
    (hcb : 1 ≤ c.codebookSize) (hv : c.codebookSize < c.vocabSize) (hT : 1 ≤ T) :
    (∀ g, (generate c env inputIds classIds ehs temp thres T scale sched).out =
        Except.ok (some g) →
      ∀ row ∈ g, ∀ x ∈ row, x < c.codebookSize ∧ x ≠ c.maskTokenId) ∧
    (∀ g, (generate2 c env inputIds classIds ehs temp T scale sched gtor).out =
        Except.ok g →
      ∀ row ∈ g, ∀ x ∈ row, x < c.codebookSize ∧ x ≠ c.maskTokenId) := by
  have hT0 : ¬ T = 0 := by omega
  have hM := maskTokenId_ge hv
  constructor
  · intro g hg row hrow x hx
    rcases hb : batchOf classIds ehs with e | batch
    · rw [generate, hb] at hg
      simp at hg
    · rw [generate, hb] at hg
      simp only [if_neg hT0] at hg
      cases inputIds with
      | none => simp at hg
      | some g0 =>
        simp only [Option.isSome_some, if_true] at hg
        rcases hlast : (generateRounds c env sched scale ehs (Option.map (classIdsAfter c)
            classIds) thres temp T (allMaskGrid c batch) batch).getLast? with _ | r
        · rw [List.getLast?_eq_none] at hlast
          obtain ⟨n, hn⟩ := Nat.exists_eq_succ_of_ne_zero hT0
          rw [generateRounds, hn] at hlast
          exact absurd hlast (gen1Loop_ne_nil c env sched scale ehs _ thres temp _ n 0 _ _)
        · rw [hlast] at hg
          simp only [Except.ok.injEq, Option.some.injEq] at hg
          subst hg
          have hr : r ∈ generateRounds c env sched scale ehs
              (Option.map (classIdsAfter c) classIds) thres temp T (allMaskGrid c batch) batch :=
            mem_of_getLast? hlast
          rw [generateRounds] at hr
          have := gen1Loop_grid hok hcb hv sched scale ehs _ thres temp T T 0 _ _
            (allMaskGrid_le c batch) r hr row hrow x hx
          exact ⟨this, by omega⟩
  · intro g hg row hrow x hx
    rcases hb : batchOf classIds ehs with e | batch
    · rw [generate2, hb] at hg
      simp at hg
    · rw [generate2, hb] at hg
      simp only [if_neg hT0] at hg
      cases inputIds with
      | none => simp at hg
      | some g0 =>
        rcases hlast : (generate2Rounds c env sched scale ehs (Option.map (classIdsAfter c)
            classIds) T (allMaskGrid c batch) temp).getLast? with _ | r
        · rw [List.getLast?_eq_none] at hlast
          obtain ⟨n, hn⟩ := Nat.exists_eq_succ_of_ne_zero hT0
          rw [generate2Rounds, hn] at hlast
          exact absurd hlast (gen2Loop_ne_nil c env sched scale ehs _ _ n 0 _ _)
        · rw [hlast] at hg
          simp only [Except.ok.injEq] at hg
          subst hg
          have hr : r ∈ generate2Rounds c env sched scale ehs
              (Option.map (classIdsAfter c) classIds) T (allMaskGrid c batch) temp :=
            mem_of_getLast? hlast
          rw [generate2Rounds] at hr
          have := gen2Loop_sampled hok hcb hv sched scale ehs _ T T 0 _ _
            (allMaskGrid_le c batch) r hr row hrow x hx
          exact ⟨this, by omega⟩

/-- Linear mask schedule `1 - r`, a spec-sanctioned pluggable noise schedule
(spec section 4.2: linear and cosine are both legitimate variants). -/
def schedLin : ℚ → ℚ := fun r => 1 - r

/-- Small concrete configuration: vocabulary 4, codebook 2 (mask id 3), one
image token per item. -/
def cfgA : Cfg := { vocabSize := 4, codebookSize := 2, numVqTokens := 1 }

/-- Concrete abstract components: a constant forward pass, a uniform softmax
surrogate, the identity `top_k` filter, and zero-valued random streams. -/
def envA : Env :=
  { fwd := fun row _ => row.map (fun _ => [1, 1, 1, 1])
    smax := fun l => l.map (fun _ => 1/2)
    topkFilter := fun _ l => l
    mrand := fun _ _ _ => 0
    mnoise := fun _ _ _ => 0
    gnoise := fun _ _ _ _ => 0 }

lemma envA_ok : EnvOK cfgA envA := by
  constructor
  · intro row e; simp [envA]
  · intro row e l hl
    simp only [envA, List.mem_map] at hl
    obtain ⟨a, ha, he⟩ := hl
    subst he
    simp [cfgA]
  · intro l; simp [envA]
  · intro t l; simp [envA]

lemma genAeval2 :
    (generate2 cfgA envA (some [[9]]) (some [0]) none 1 1 0 schedLin none).out =
      Except.ok [[0]] := by
  norm_num [generate2, batchOf, classIdsAfter, generate2Rounds, gen2Loop, gen2Round,
    allMaskGrid, cfgA, envA, withClassTok, prependClass, stripClassTok, computeLogits,
    mapWithIdx, multinomialIdx, whereList, zipWith3, Cfg.maskTokenId, List.replicate]

/-- Witness for C1 at a concrete one-round class-conditioned call. -/
theorem decode_terminal_complete_wit :
    (0 : Nat) < cfgA.codebookSize ∧ (0 : Nat) ≠ cfgA.maskTokenId :=
  (decode_terminal_complete cfgA envA envA_ok schedLin 0 (9/10) 1 none (some [0])
    (some [[9]]) 1 none (by decide) (by decide) (by decide)).2 [[0]] genAeval2
    [0] (by simp) 0 (by simp)

/-- C2 (code bug): with the default `input_ids = None`, both entry points
crash with a `None`-type error in the first round instead of starting from the
all-mask grid: the initialization guard (lines 575 and 656) is inverted
(`if input_ids is not None`), contradicting the comment directly above it,
`initialize with all image tokens masked`, and the pipeline call site, which
never passes `input_ids`. -/
theorem default_input_none_crashes (c : Cfg) (env : Env) (sched : ℚ → ℚ)
    (scale thres temp : ℚ) (ehs : Option (List (List ℚ))) (cls : List Nat) (T : Nat)
    (gtor : Option Nat) :
    (generate c env none (some cls) ehs temp thres (T + 1) scale sched).out =
      Except.error PyErr.noneType ∧
    (generate2 c env none (some cls) ehs temp (T + 1) scale sched gtor).out =
      Except.error PyErr.noneType := by
  constructor
  · simp [generate, batchOf]
  · simp [generate2, batchOf]

/-- C6 counterexample: `generate` called with `timesteps = 0` does not raise a
configuration error; it returns normally (with the still fully-masked grid). -/
theorem timesteps_zero_cex :
    (generate cfgA envA (some [[9]]) (some [0]) none 1 (9/10) 0 0 schedLin).out =
      Except.ok (some (allMaskGrid cfgA 1)) := by
  simp [generate, batchOf]

/-- C6 amended: neither entry point validates `timesteps`.  `generate` with
`timesteps = 0` performs no rounds and returns the (still fully masked)
initialized grid without raising; `generate2` with `timesteps = 0` fails only
with an uninitialized-variable error on `return sampled_ids`, not with a
configuration error raised before compute. -/
theorem timesteps_zero_amended (c : Cfg) (env : Env) (sched : ℚ → ℚ)
    (scale thres temp : ℚ) (ehs : Option (List (List ℚ))) (cls : List Nat)
    (g0 : Grid) (gtor : Option Nat) :
    (generate c env (some g0) (some cls) ehs temp thres 0 scale sched).out =
      Except.ok (some (allMaskGrid c cls.length)) ∧
    (generate2 c env (some g0) (some cls) ehs temp 0 scale sched gtor).out =
      Except.error PyErr.unboundLocal := by
  constructor
  · simp [generate, batchOf]
  · simp [generate2, batchOf]

/-- C7: guidance mixing computes the elementwise linear extrapolation
`uncond + scale * (cond - uncond)` over equally-shaped tensors; `scale = 1`
yields exactly the conditional logits and `scale = 0` exactly the
unconditional logits, with no other effect. -/
theorem mix_degeneracy (cond uncond : List ℚ) (h : cond.length = uncond.length) :
    mixLogits 1 cond uncond = cond ∧ mixLogits 0 cond uncond = uncond ∧
    ∀ s : ℚ, ∀ i < cond.length, (mixLogits s cond uncond).getD i 0 =
      uncond.getD i 0 + s * (cond.getD i 0 - uncond.getD i 0) := by
  induction cond generalizing uncond with
  | nil =>
    cases uncond with
    | nil => refine ⟨rfl, rfl, ?_⟩; intro s i hi; simp at hi
    | cons u ut => simp at h
  | cons cv ct ih =>
    cases uncond with
    | nil => simp at h
    | cons uv ut =>
      simp only [List.length_cons, Nat.succ_inj] at h
      obtain ⟨h1, h2, h3⟩ := ih ut h
      refine ⟨?_, ?_, ?_⟩
      · simp only [mixLogits, List.zipWith_cons_cons] at h1 ⊢
        rw [h1]
        norm_num
      · simp only [mixLogits, List.zipWith_cons_cons] at h2 ⊢
        rw [h2]
        norm_num
      · intro s i hi
        cases i with
        | zero => simp [mixLogits]
        | succ j =>
          simp only [mixLogits, List.zipWith_cons_cons, List.getD_cons_succ]
          exact h3 s j (by simpa using hi)

/-- Witness for C7 on concrete one-element logits. -/
theorem mix_degeneracy_wit : mixLogits 1 [3] [5] = [3] ∧ mixLogits 0 [3] [5] = [5] :=
  ⟨(mix_degeneracy [3] [5] rfl).1, (mix_degeneracy [3] [5] rfl).2.1⟩

/-- C10: both entry points add `codebook_size` to the caller's `class_ids`
tensor in place before the round loop (`class_ids += self.config.codebook_size`,
lines 571-572 and 652-653), so the caller-owned conditioning input does not
remain unchanged across the call, and a second call passing the same tensor
object uses class ids shifted twice. -/
theorem class_ids_mutated_in_place (c : Cfg) (env : Env) (sched : ℚ → ℚ)
    (scale thres temp : ℚ) (ehs : Option (List (List ℚ))) (inp : Option Grid)
    (cls : List Nat) (T : Nat) (gtor : Option Nat)
    (hcb : 1 ≤ c.codebookSize) (hne : cls ≠ []) :
    (generate c env inp (some cls) ehs temp thres T scale sched).classIdsFinal =
      some (classIdsAfter c cls) ∧
    (generate2 c env inp (some cls) ehs temp T scale sched gtor).classIdsFinal =
      some (classIdsAfter c cls) ∧
    classIdsAfter c cls ≠ cls ∧
    classIdsAfter c (classIdsAfter c cls) = cls.map (· + 2 * c.codebookSize) := by
  refine ⟨?_, ?_, ?_, ?_⟩
  · rw [generate]
    simp only [batchOf]
    split
    · simp
    · split
      · simp
      · split <;> simp
  · rw [generate2]
    simp only [batchOf]
    split
    · simp
    · split
      · simp
      · split <;> simp
  · intro hcontra
    cases cls with
    | nil => exact hne rfl
    | cons a t =>
      simp only [classIdsAfter, List.map_cons, List.cons.injEq] at hcontra
      omega
  · simp only [classIdsAfter, List.map_map]
    apply List.map_congr_left
    intro a _
    simp
    omega

/-- Witness for C10 at a concrete class-id list. -/
theorem class_ids_mutated_in_place_wit :
    (generate2 cfgA envA (some [[9]]) (some [0]) none 1 1 0 schedLin none).classIdsFinal =
      some (classIdsAfter cfgA [0]) ∧ classIdsAfter cfgA [0] ≠ [0] := by
  have h := class_ids_mutated_in_place cfgA envA schedLin 0 (9/10) 1 none (some [[9]])
    [0] 1 none (by decide) (by simp)
  exact ⟨h.2.1, h.2.2.1⟩

/-- Ambient-stream variant of `envA` whose global RNG yields `3/4` instead of
`0` for the multinomial draws. -/
def env9b : Env := { envA with mrand := fun _ _ _ => 3/4 }

/-- C9 (code bug): `generate2` accepts the injected random source only to
swallow it in `**kwargs` and never reads it, while sampling consumes the
ambient global RNG: the output is invariant in the `generator` argument but
changes with the ambient stream, so two calls with identical inputs and the
identical injected source are not bit-identical unless the ambient global
state happens to coincide. -/
theorem generator_ignored_ambient_used :
    (∀ (c : Cfg) (env : Env) (inp : Option Grid) (cls : Option (List Nat))
      (ehs : Option (List (List ℚ))) (temp : ℚ) (T : Nat) (scale : ℚ)
      (sched : ℚ → ℚ) (g1 g2 : Option Nat),
      generate2 c env inp cls ehs temp T scale sched g1 =
        generate2 c env inp cls ehs temp T scale sched g2) ∧
    (generate2 cfgA envA (some [[9]]) (some [0]) none 1 1 0 schedLin (some 7)).out ≠
      (generate2 cfgA env9b (some [[9]]) (some [0]) none 1 1 0 schedLin (some 7)).out := by
  constructor
  · intro c env inp cls ehs temp T scale sched g1 g2
    rfl
  · have ha : (generate2 cfgA envA (some [[9]]) (some [0]) none 1 1 0 schedLin
        (some 7)).out = Except.ok [[0]] := by
      norm_num [generate2, batchOf, classIdsAfter, generate2Rounds, gen2Loop, gen2Round,
        allMaskGrid, cfgA, envA, withClassTok, prependClass, stripClassTok, computeLogits,
        mapWithIdx, multinomialIdx, whereList, zipWith3, Cfg.maskTokenId, List.replicate]
    have hb : (generate2 cfgA env9b (some [[9]]) (some [0]) none 1 1 0 schedLin
        (some 7)).out = Except.ok [[1]] := by
      norm_num [generate2, batchOf, classIdsAfter, generate2Rounds, gen2Loop, gen2Round,
        allMaskGrid, cfgA, envA, env9b, withClassTok, prependClass, stripClassTok,
        computeLogits, mapWithIdx, multinomialIdx, whereList, zipWith3, Cfg.maskTokenId,
        List.replicate]
    rw [ha, hb]
    simp

lemma floor_q43 : (⌊(4 : ℚ)/3⌋ : Int) = 1 := by
  rw [Int.floor_eq_iff] <;> norm_num

lemma floor_q23 : (⌊(2 : ℚ)/3⌋ : Int) = 0 := by
  rw [Int.floor_eq_iff] <;> norm_num

/-- Concrete configuration with two image tokens per item (vocabulary 4,
codebook 2, mask id 3). -/
def cfg3 : Cfg := { vocabSize := 4, codebookSize := 2, numVqTokens := 2 }

/-- C5 (code bug): `generate2` reassigns `temperature` each round
(`temperature = temperature * (1.0 - ratio)`, line 709), so the temperature
used at progress ratio `2/3` is `1·(1-1/3)·(1-2/3) = 2/9`, not the
`temperature₀ × (1 - ratio) = 1/3` that the spec (and the original MaskGIT
code that line 641 claims to mirror) prescribes. -/
theorem gen2_temperature_compounds :
    ((generate2Rounds cfg3 envA schedLin 0 none none 3 (allMaskGrid cfg3 1) 1).map
      Round2.temperature = [2/3, 2/9, 0]) ∧
    (1 : ℚ) * (1 - 2/3) ≠ 2/9 := by
  constructor
  · norm_num [generate2Rounds, gen2Loop, gen2Round, allMaskGrid, cfg3, envA, withClassTok,
      stripClassTok, computeLogits, mapWithIdx, multinomialIdx, whereList, zipWith3,
      Cfg.maskTokenId, List.replicate, schedLin, lowestKMask, rankAsc, List.range_succ,
      finfoMax, floor_q43, floor_q23]
  · norm_num

/-- C3 counterexample: with `seq_len = 2`, `timesteps = 3` and the (spec-
sanctioned) linear schedule, round 1 — not the terminal round, which is round
2 — enters with `unknownCount = 1` yet selects `mask_len = 1` positions for
re-masking, exceeding `unknownCount - 1 = 0`: no position becomes decided in
that round. -/
theorem gen2_masklen_cex :
    ((generate2Rounds cfg3 envA schedLin 0 none none 3 (allMaskGrid cfg3 1) 1).get? 1).map
      (fun r => (r.unknownCounts, r.maskLens)) = some ([1], [1]) ∧
    ¬ ((1 : Int) ≤ 1 - 1) := by
  constructor
  · norm_num [generate2Rounds, gen2Loop, gen2Round, allMaskGrid, cfg3, envA, withClassTok,
      stripClassTok, computeLogits, mapWithIdx, multinomialIdx, whereList, zipWith3,
      Cfg.maskTokenId, List.replicate, schedLin, lowestKMask, rankAsc, List.range_succ,
      finfoMax, floor_q43, floor_q23]
  · norm_num

lemma gen2Loop_maskLens_eq (c : Cfg) (env : Env) (sched : ℚ → ℚ) (scale : ℚ)
    (ehs : Option (List (List ℚ))) (shifted : Option (List Nat)) (T : Nat) :
    ∀ rem step (grid : Grid) (temp : ℚ),
    ∀ r ∈ gen2Loop c env sched scale ehs shifted T rem step grid temp,
      r.maskLens = r.unknownCounts.map (fun u => max 1 (min (Int.ofNat u - 1) r.schedTokens)) := by
  intro rem
  induction rem with
  | zero => intro _ _ _ r hr; simp [gen2Loop] at hr
  | succ n ih =>
    intro step grid temp r hr
    simp only [gen2Loop, List.mem_cons] at hr
    rcases hr with hr | hr
    · subst hr; rfl
    · exact ih _ _ _ r hr

/-- C3 amended: `generate2` computes
`mask_len = max(1, min(unknownCount - 1, floor(seq_len * mask_ratio)))`, so at
every round entered with `unknownCount ≥ 2` the claimed bound
`1 ≤ mask_len ≤ unknownCount - 1` holds; when `unknownCount = 1`, which is
reachable at non-terminal rounds, `mask_len = 1` exceeds `unknownCount - 1`
and no position becomes decided in that round. -/
theorem gen2_masklen_progress (c : Cfg) (env : Env) (sched : ℚ → ℚ) (scale : ℚ)
    (ehs : Option (List (List ℚ))) (shifted : Option (List Nat)) (T : Nat)
    (grid0 : Grid) (temp0 : ℚ) (i b u : Nat) (ml : Int)
    (h1 : ((generate2Rounds c env sched scale ehs shifted T grid0 temp0).get? i).bind
        (fun r => r.unknownCounts.get? b) = some u)
    (h2 : ((generate2Rounds c env sched scale ehs shifted T grid0 temp0).get? i).bind
        (fun r => r.maskLens.get? b) = some ml)
    (hu : 2 ≤ u) : 1 ≤ ml ∧ ml ≤ Int.ofNat u - 1 := by
  rcases hr : (generate2Rounds c env sched scale ehs shifted T grid0 temp0).get? i with _ | r
  · rw [hr] at h1
    simp at h1
  · rw [hr] at h1 h2
    simp only [Option.some_bind] at h1 h2
    have hmem : r ∈ generate2Rounds c env sched scale ehs shifted T grid0 temp0 :=
      List.get?_mem hr
    rw [generate2Rounds] at hmem
    have heq := gen2Loop_maskLens_eq c env sched scale ehs shifted T T 0 grid0 temp0 r hmem
    rw [heq, List.get?_map, h1] at h2
    simp only [Option.map_some', Option.some.injEq] at h2
    subst h2
    constructor
    · exact le_max_left _ _
    · have h3 : (1 : Int) ≤ Int.ofNat u - 1 := by
        rw [show Int.ofNat u = (u : Int) from rfl]
        omega
      exact max_le h3 (min_le_left _ _)

/-- Witness for the C3 amended bound at the concrete round 0 of the same
trace (`unknownCount = 2`, `mask_len = 1`). -/
theorem gen2_masklen_progress_wit : 1 ≤ (1 : Int) ∧ (1 : Int) ≤ Int.ofNat 2 - 1 := by
  have h := gen2_masklen_progress cfg3 envA schedLin 0 none none 3 (allMaskGrid cfg3 1) 1
    0 0 2 1
    (by norm_num [generate2Rounds, gen2Loop, gen2Round, allMaskGrid, cfg3, envA,
      withClassTok, stripClassTok, computeLogits, mapWithIdx, multinomialIdx, whereList,
      zipWith3, Cfg.maskTokenId, List.replicate, schedLin, lowestKMask, rankAsc,
      List.range_succ, finfoMax, floor_q43, floor_q23])
    (by norm_num [generate2Rounds, gen2Loop, gen2Round, allMaskGrid, cfg3, envA,
      withClassTok, stripClassTok, computeLogits, mapWithIdx, multinomialIdx, whereList,
      zipWith3, Cfg.maskTokenId, List.replicate, schedLin, lowestKMask, rankAsc,
      List.range_succ, finfoMax, floor_q43, floor_q23])
    (by norm_num)
  exact h

/-- Concrete configuration with vocabulary 3, codebook 2, one image token. -/
def cfg4 : Cfg := { vocabSize := 3, codebookSize := 2, numVqTokens := 1 }

/-- Concrete abstract components whose forward pass distinguishes the
conditioning embedding `[7]` from everything else (in particular from its
zeroed version). -/
def env4 : Env :=
  { fwd := fun row e =>
      if e = some [7] then row.map (fun _ => [1, 1, 1]) else row.map (fun _ => [0, 0, 0])
    smax := fun l => l.map (fun _ => 1/2)
    topkFilter := fun _ l => l
    mrand := fun _ _ _ => 0
    mnoise := fun _ _ _ => 0
    gnoise := fun _ _ _ _ => 0 }

/-- C4 counterexample: at `guidance_scale = 0` with text conditioning, the
round-0 logits of `generate2` equal the truncated CONDITIONAL logits
`[[1, 1]]`, which differ from the truncated logits `[[0, 0]]` of the
zero-embedding (unconditional) forward pass. -/
theorem guidance_zero_cex :
    ((generate2Rounds cfg4 env4 schedLin 0 (some [[7]]) none 1 (allMaskGrid cfg4 1) 1).get? 0).map
      Round2.logits = some [[[1, 1]]] ∧
    (env4.fwd [cfg4.maskTokenId] (some (zerosLike [7]))).map (List.take cfg4.codebookSize) =
      [[(0 : ℚ), 0]] ∧
    ([[[(1 : ℚ), 1]]] : Logits) ≠ [[[(0 : ℚ), 0]]] := by
  refine ⟨?_, ?_, ?_⟩
  · norm_num [generate2Rounds, gen2Loop, gen2Round, allMaskGrid, cfg4, env4, withClassTok,
      stripClassTok, computeLogits, mapWithIdx, multinomialIdx, whereList, zipWith3,
      Cfg.maskTokenId, List.replicate, schedLin, lowestKMask, rankAsc, List.range_succ,
      finfoMax, zerosLike]
  · norm_num [env4, cfg4, zerosLike, Cfg.maskTokenId]
  · norm_num

/-- C4 amended: with `guidance_scale = 0` (text conditioning present), the
guidance branch is skipped and a single forward pass runs with the caller's
CONDITIONAL embedding: the per-round logits equal those conditional logits
truncated to `codebook_size` — not the logits of a zero-embedding
(unconditional) pass. -/
theorem guidance_zero_single_cond_pass (c : Cfg) (env : Env) (es : List (List ℚ)) (g : Grid) :
    computeLogits c env 0 (some es) g =
      List.zipWith (fun row e => (env.fwd row (some e)).map (List.take c.codebookSize)) g es := by
  simp [computeLogits]

lemma computeLogits_length {c : Cfg} {env : Env} {scale : ℚ} {ehs : Option (List (List ℚ))}
    {g : Grid} {batch : Nat} (hg : g.length = batch)
    (hes : ∀ es, ehs = some es → es.length = batch) :
    (computeLogits c env scale ehs g).length = batch := by
  match ehs with
  | none => simpa [computeLogits] using hg
  | some es =>
    have he := hes es rfl
    simp only [computeLogits]
    split <;> simp [List.length_zipWith, hg, he]

lemma computeLogits_item_len {c : Cfg} {env : Env} (hok : EnvOK c env) {scale : ℚ}
    {ehs : Option (List (List ℚ))} {g : Grid} {L : Nat}
    (hrows : ∀ row ∈ g, row.length = L) :
    ∀ item ∈ computeLogits c env scale ehs g, item.length = L := by
  intro item hitem
  match ehs with
  | none =>
    simp only [computeLogits] at hitem
    obtain ⟨row, hrow, he⟩ := List.mem_map.mp hitem
    subst he
    rw [List.length_map, hok.fwd_len]
    exact hrows row hrow
  | some es =>
    simp only [computeLogits] at hitem
    split at hitem
    · obtain ⟨row, hrow, e, _, he⟩ := mem_zipWith hitem
      subst he
      rw [List.length_zipWith, List.length_map, List.length_map, hok.fwd_len, hok.fwd_len]
      simp [hrows row hrow]
    · obtain ⟨row, hrow, e, _, he⟩ := mem_zipWith hitem
      subst he
      rw [List.length_map, hok.fwd_len]
      exact hrows row hrow

lemma prependClass_get? {sc : List Nat} {g : Grid} {b : Nat} {item : List Nat}
    (h : (prependClass sc g).get? b = some item) :
    ∃ cid row, sc.get? b = some cid ∧ g.get? b = some row ∧ item = cid :: row := by
  rw [prependClass, List.get?_zipWith] at h
  rcases hsc : sc.get? b with _ | cid
  · rw [hsc] at h; simp at h
  · rcases hg : g.get? b with _ | row
    · rw [hsc, hg] at h; simp at h
    · rw [hsc, hg] at h
      simp only [Option.some.injEq] at h
      exact ⟨cid, row, rfl, rfl, h.symm⟩

lemma gen2Round_shape {c : Cfg} {env : Env} (hok : EnvOK c env)
    (sched : ℚ → ℚ) (scale : ℚ) {ehs : Option (List (List ℚ))} {sc : List Nat}
    (T step : Nat) {batch : Nat} {grid : Grid} (temp : ℚ)
    (hsc : sc.length = batch) (hes : ∀ es, ehs = some es → es.length = batch)
    (hlen : grid.length = batch) (hrows : ∀ row ∈ grid, row.length = c.numVqTokens) :
    (gen2Round c env sched scale ehs (some sc) T step grid temp).sampled.length = batch ∧
    (∀ row ∈ (gen2Round c env sched scale ehs (some sc) T step grid temp).sampled,
      row.length = c.numVqTokens) ∧
    (gen2Round c env sched scale ehs (some sc) T step grid temp).nextGrid.length = batch ∧
    (∀ row ∈ (gen2Round c env sched scale ehs (some sc) T step grid temp).nextGrid,
      row.length = c.numVqTokens) ∧
    (∀ b item, (gen2Round c env sched scale ehs (some sc) T step grid temp).fwdInput.get? b =
        some item → item.head? = sc.get? b ∧ item.length = c.numVqTokens + 1) ∧
    (∀ item ∈ (gen2Round c env sched scale ehs (some sc) T step grid temp).logits,
      item.length = c.numVqTokens) := by
  have hw_len : (prependClass sc grid).length = batch := by
    rw [prependClass, List.length_zipWith, hsc, hlen]
    omega
  have hw_rows : ∀ row ∈ prependClass sc grid, row.length = c.numVqTokens + 1 := by
    intro row hrow
    obtain ⟨cid, _, r0, hr0, he⟩ := mem_zipWith hrow
    subst he
    simp [hrows r0 hr0]
  have hL_len : (computeLogits c env scale ehs (prependClass sc grid)).length = batch :=
    computeLogits_length hw_len hes
  have hL_items : ∀ item ∈ computeLogits c env scale ehs (prependClass sc grid),
      item.length = c.numVqTokens + 1 := computeLogits_item_len hok hw_rows
  have hlogits1 : ∀ item ∈ (computeLogits c env scale ehs (prependClass sc grid)).map List.tail,
      item.length = c.numVqTokens := by
    intro item hitem
    obtain ⟨it, hit, he⟩ := List.mem_map.mp hitem
    subst he
    rw [List.length_tail, hL_items it hit]
    omega
  have hgrid1 : ∀ row ∈ (prependClass sc grid).map List.tail, row.length = c.numVqTokens := by
    intro row hrow
    obtain ⟨it, hit, he⟩ := List.mem_map.mp hrow
    subst he
    rw [List.length_tail, hw_rows it hit]
    omega
  have hs0_rows : ∀ row ∈ mapWithIdx (fun b item =>
      mapWithIdx (fun p lrow => multinomialIdx (env.smax lrow) (env.mrand step b p)) 0 item) 0
      ((computeLogits c env scale ehs (prependClass sc grid)).map List.tail),
      row.length = c.numVqTokens := by
    intro row hrow
    obtain ⟨b, item, hitem, he⟩ := mem_mapWithIdx hrow
    subst he
    rw [length_mapWithIdx]
    exact hlogits1 item hitem
  have hunk_rows : ∀ row ∈ ((prependClass sc grid).map List.tail).map
      (fun row => row.map (fun v => v == c.maskTokenId)), row.length = c.numVqTokens := by
    intro row hrow
    obtain ⟨it, hit, he⟩ := List.mem_map.mp hrow
    subst he
    rw [List.length_map]
    exact hgrid1 it hit
  have hsamp_len :
      (gen2Round c env sched scale ehs (some sc) T step grid temp).sampled.length = batch := by
    simp only [gen2Round, stripClassTok, withClassTok]
    rw [length_zipWith3, List.length_map, List.length_map, length_mapWithIdx,
      List.length_map, hL_len, hw_len]
    omega
  have hsamp_rows : ∀ row ∈ (gen2Round c env sched scale ehs (some sc) T step grid
      temp).sampled, row.length = c.numVqTokens := by
    simp only [gen2Round, stripClassTok, withClassTok]
    intro row hrow
    obtain ⟨urow, hurow, s0row, hs0row, grow, hgrow, he⟩ := mem_zipWith3 hrow
    subst he
    rw [length_whereList, hunk_rows urow hurow, hs0_rows s0row hs0row, hgrid1 grow hgrow]
    omega
  refine ⟨hsamp_len, hsamp_rows, ?_, ?_, ?_, ?_⟩
  · simp only [gen2Round, stripClassTok, withClassTok]
    rw [List.length_zipWith, length_mapWithIdx]
    have h1 : (List.zipWith (fun urow selrow => whereList urow selrow
        (selrow.map fun _ => finfoMax))
        (((prependClass sc grid).map List.tail).map
          (fun row => row.map (fun v => v == c.maskTokenId)))
        (List.zipWith (fun item srow => List.zipWith (fun prow sid => prow.getD sid 0) item srow)
          (((computeLogits c env scale ehs (prependClass sc grid)).map List.tail).map
            (fun item => item.map env.smax))
          (zipWith3 whereList
            (((prependClass sc grid).map List.tail).map
              (fun row => row.map (fun v => v == c.maskTokenId)))
            (mapWithIdx (fun b item => mapWithIdx (fun p lrow =>
              multinomialIdx (env.smax lrow) (env.mrand step b p)) 0 item) 0
              ((computeLogits c env scale ehs (prependClass sc grid)).map List.tail))
            ((prependClass sc grid).map List.tail)))).length = batch := by
      rw [List.length_zipWith, List.length_map, List.length_map, List.length_zipWith,
        List.length_map, List.length_map, length_zipWith3, List.length_map, List.length_map,
        length_mapWithIdx, List.length_map, hL_len, hw_len]
      omega
    rw [h1]
    have h2 := hsamp_len
    simp only [gen2Round, stripClassTok, withClassTok] at h2
    rw [h2]
    omega
  · simp only [gen2Round, stripClassTok, withClassTok]
    intro row hrow
    obtain ⟨mrow, hmrow, srow, hsrow, he⟩ := mem_zipWith hrow
    subst he
    have hsr : srow.length = c.numVqTokens := by
      have h2 := hsamp_rows
      simp only [gen2Round, stripClassTok, withClassTok] at h2
      exact h2 srow hsrow
    have hmr : mrow.length = c.numVqTokens := by
      obtain ⟨b, prow, hprow, he⟩ := mem_mapWithIdx hmrow
      subst he
      rw [length_lowestKMask, length_mapWithIdx]
      obtain ⟨urow, hurow, selrow, hselrow, he⟩ := mem_zipWith hprow
      subst he
      have hselr : selrow.length = c.numVqTokens := by
        obtain ⟨item, hitem, srow2, hsrow2, he⟩ := mem_zipWith hselrow
        subst he
        rw [List.length_zipWith]
        obtain ⟨it, hit, he⟩ := List.mem_map.mp hitem
        subst he
        rw [List.length_map, hlogits1 it hit]
        have h2 := hsamp_rows
        simp only [gen2Round, stripClassTok, withClassTok] at h2
        rw [h2 srow2 hsrow2]
        omega
      rw [length_whereList, hunk_rows urow hurow, List.length_map, hselr]
      omega
    rw [length_whereList, List.length_map, hsr, hmr]
    omega
  · simp only [gen2Round, withClassTok]
    intro b item hb
    obtain ⟨cid, row, hcid, hrow, he⟩ := prependClass_get? hb
    subst he
    refine ⟨by rw [hcid]; rfl, ?_⟩
    simp only [List.length_cons]
    rw [hrows row (List.get?_mem hrow)]
  · simp only [gen2Round, stripClassTok, withClassTok]
    exact hlogits1

lemma gen2Loop_shape {c : Cfg} {env : Env} (hok : EnvOK c env)
    {sched : ℚ → ℚ} {scale : ℚ} {ehs : Option (List (List ℚ))} {sc : List Nat}
    {T batch : Nat} (hsc : sc.length = batch)
    (hes : ∀ es, ehs = some es → es.length = batch) :
    ∀ rem step (grid : Grid) (temp : ℚ), grid.length = batch →
    (∀ row ∈ grid, row.length = c.numVqTokens) →
    ∀ r ∈ gen2Loop c env sched scale ehs (some sc) T rem step grid temp,
      (r.sampled.length = batch ∧ ∀ row ∈ r.sampled, row.length = c.numVqTokens) ∧
      (∀ b item, r.fwdInput.get? b = some item →
        item.head? = sc.get? b ∧ item.length = c.numVqTokens + 1) ∧
      (∀ item ∈ r.logits, item.length = c.numVqTokens) := by
  intro rem
  induction rem with
  | zero => intro _ _ _ _ _ r hr; simp [gen2Loop] at hr
  | succ n ih =>
    intro step grid temp hlen hrows r hr
    simp only [gen2Loop, List.mem_cons] at hr
    obtain ⟨h1, h2, h3, h4, h5, h6⟩ :=
      gen2Round_shape hok sched scale T step temp hsc hes hlen hrows
    rcases hr with hr | hr
    · subst hr
      exact ⟨⟨h1, h2⟩, h5, h6⟩
    · exact ih (step + 1) _ _ h3 h4 r hr

lemma gen1Round_shape {c : Cfg} {env : Env} (hok : EnvOK c env)
    (sched : ℚ → ℚ) (scale : ℚ) {ehs : Option (List (List ℚ))} {sc : List Nat}
    (thres startTemp : ℚ) (T step : Nat) {batch : Nat} {grid : Grid}
    {scores : List (List ℚ)}
    (hsc : sc.length = batch) (hes : ∀ es, ehs = some es → es.length = batch)
    (hlen : grid.length = batch) (hrows : ∀ row ∈ grid, row.length = c.numVqTokens)
    (hslen : scores.length = batch)
    (hsrows : ∀ srow ∈ scores, srow.length = c.numVqTokens) :
    (gen1Round c env sched scale ehs (some sc) thres startTemp T step grid
      scores).grid.length = batch ∧
    (∀ row ∈ (gen1Round c env sched scale ehs (some sc) thres startTemp T step grid
      scores).grid, row.length = c.numVqTokens) ∧
    (gen1Round c env sched scale ehs (some sc) thres startTemp T step grid
      scores).scores.length = batch ∧
    (∀ srow ∈ (gen1Round c env sched scale ehs (some sc) thres startTemp T step grid
      scores).scores, srow.length = c.numVqTokens) ∧
    (∀ b item, (gen1Round c env sched scale ehs (some sc) thres startTemp T step grid
        scores).fwdInput.get? b = some item →
      item.head? = sc.get? b ∧ item.length = c.numVqTokens + 1) ∧
    (∀ item ∈ (gen1Round c env sched scale ehs (some sc) thres startTemp T step grid
      scores).logits, item.length = c.numVqTokens) := by
  have hM_len : (List.zipWith (fun srow row =>
      whereList (topKMaskDesc ((max (truncInt (sched (linspace01 T step) * (c.numVqTokens : ℚ))) 1).toNat) srow) (row.map fun _ => c.maskTokenId) row)
        scores grid).length = batch := by
    rw [List.length_zipWith, hslen, hlen]
    omega
  have hM_rows : ∀ row ∈ List.zipWith (fun srow row =>
      whereList (topKMaskDesc ((max (truncInt (sched (linspace01 T step) * (c.numVqTokens : ℚ))) 1).toNat) srow) (row.map fun _ => c.maskTokenId) row) scores grid,
      row.length = c.numVqTokens := by
    intro row hrow
    obtain ⟨srow, hsrow, r0, hr0, he⟩ := mem_zipWith hrow
    subst he
    rw [length_whereList, length_topKMaskDesc, hsrows srow hsrow, List.length_map,
      hrows r0 hr0]
    omega
  have hw_len : (prependClass sc (List.zipWith (fun srow row =>
      whereList (topKMaskDesc ((max (truncInt (sched (linspace01 T step) * (c.numVqTokens : ℚ))) 1).toNat) srow) (row.map fun _ => c.maskTokenId) row)
        scores grid)).length = batch := by
    rw [prependClass, List.length_zipWith, hsc, hM_len]
    omega
  have hw_rows : ∀ row ∈ prependClass sc (List.zipWith (fun srow row =>
      whereList (topKMaskDesc ((max (truncInt (sched (linspace01 T step) * (c.numVqTokens : ℚ))) 1).toNat) srow) (row.map fun _ => c.maskTokenId) row) scores grid),
      row.length = c.numVqTokens + 1 := by
    intro row hrow
    obtain ⟨cid, _, r0, hr0, he⟩ := mem_zipWith hrow
    subst he
    simp [hM_rows r0 hr0]
  have hL_items : ∀ item ∈ computeLogits c env scale ehs (prependClass sc
      (List.zipWith (fun srow row =>
        whereList (topKMaskDesc ((max (truncInt (sched (linspace01 T step) * (c.numVqTokens : ℚ))) 1).toNat) srow) (row.map fun _ => c.maskTokenId) row) scores grid)),
      item.length = c.numVqTokens + 1 := computeLogits_item_len hok hw_rows
  have hL_len : (computeLogits c env scale ehs (prependClass sc
      (List.zipWith (fun srow row =>
        whereList (topKMaskDesc ((max (truncInt (sched (linspace01 T step) * (c.numVqTokens : ℚ))) 1).toNat) srow) (row.map fun _ => c.maskTokenId) row)
        scores grid))).length = batch := computeLogits_length hw_len hes
  have hlogits1 : ∀ item ∈ (computeLogits c env scale ehs (prependClass sc
      (List.zipWith (fun srow row =>
        whereList (topKMaskDesc ((max (truncInt (sched (linspace01 T step) * (c.numVqTokens : ℚ))) 1).toNat) srow) (row.map fun _ => c.maskTokenId) row)
        scores grid))).map List.tail, item.length = c.numVqTokens := by
    intro item hitem
    obtain ⟨it, hit, he⟩ := List.mem_map.mp hitem
    subst he
    rw [List.length_tail, hL_items it hit]
    omega
  have hgrid1 : ∀ row ∈ (prependClass sc (List.zipWith (fun srow row =>
      whereList (topKMaskDesc ((max (truncInt (sched (linspace01 T step) * (c.numVqTokens : ℚ))) 1).toNat) srow) (row.map fun _ => c.maskTokenId) row)
        scores grid)).map List.tail, row.length = c.numVqTokens := by
    intro row hrow
    obtain ⟨it, hit, he⟩ := List.mem_map.mp hrow
    subst he
    rw [List.length_tail, hw_rows it hit]
    omega
  have hpred_rows : ∀ row ∈ mapWithIdx (fun b item =>
      mapWithIdx (fun p lrow =>
        argmaxIdx (mapWithIdx (fun ch l => l + startTemp * (((T - 1 - step : Nat) : ℚ) /
          (T : ℚ)) * env.gnoise step b p ch) 0 lrow)) 0 item) 0
      (((computeLogits c env scale ehs (prependClass sc (List.zipWith (fun srow row =>
        whereList (topKMaskDesc ((max (truncInt (sched (linspace01 T step) * (c.numVqTokens : ℚ))) 1).toNat) srow) (row.map fun _ => c.maskTokenId) row)
        scores grid))).map List.tail).map (fun item => item.map (env.topkFilter thres))),
      row.length = c.numVqTokens := by
    intro row hrow
    obtain ⟨b, item, hitem, he⟩ := mem_mapWithIdx hrow
    subst he
    rw [length_mapWithIdx]
    obtain ⟨it, hit, he⟩ := List.mem_map.mp hitem
    subst he
    rw [List.length_map]
    exact hlogits1 it hit
  refine ⟨?_, ?_, ?_, ?_, ?_, ?_⟩
  · simp only [gen1Round, stripClassTok, withClassTok]
    simp only [length_zipWith3, List.length_map, length_mapWithIdx, hL_len, hw_len]
    omega
  · simp only [gen1Round, stripClassTok, withClassTok]
    intro row hrow
    obtain ⟨mrow, hmrow, prow, hprow, grow, hgrow, he⟩ := mem_zipWith3 hrow
    subst he
    have hmr : mrow.length = c.numVqTokens := by
      obtain ⟨it, hit, he⟩ := List.mem_map.mp hmrow
      subst he
      rw [List.length_map]
      exact hgrid1 it hit
    rw [length_whereList, hmr, hpred_rows prow hprow, hgrid1 grow hgrow]
    omega
  · simp only [gen1Round, stripClassTok, withClassTok]
    simp only [List.length_zipWith, List.length_map, length_mapWithIdx, hL_len]
    omega
  · simp only [gen1Round, stripClassTok, withClassTok]
    intro srow hsrow
    obtain ⟨item, hitem, prow, hprow, he⟩ := mem_zipWith hsrow
    subst he
    have hil : item.length = c.numVqTokens := by
      obtain ⟨it, hit, he⟩ := List.mem_map.mp hitem
      subst he
      rw [List.length_map]
      exact hlogits1 it hit
    rw [List.length_zipWith, hil, hpred_rows prow hprow]
    omega
  · simp only [gen1Round, withClassTok]
    intro b item hb
    obtain ⟨cid, row, hcid, hrow, he⟩ := prependClass_get? hb
    subst he
    refine ⟨by rw [hcid]; rfl, ?_⟩
    simp only [List.length_cons]
    rw [hM_rows row (List.get?_mem hrow)]
  · simp only [gen1Round, stripClassTok, withClassTok]
    exact hlogits1

lemma gen1Loop_shape {c : Cfg} {env : Env} (hok : EnvOK c env)
    {sched : ℚ → ℚ} {scale : ℚ} {ehs : Option (List (List ℚ))} {sc : List Nat}
    {thres startTemp : ℚ} {T batch : Nat} (hsc : sc.length = batch)
    (hes : ∀ es, ehs = some es → es.length = batch) :
    ∀ rem step (grid : Grid) (scores : List (List ℚ)), grid.length = batch →
    (∀ row ∈ grid, row.length = c.numVqTokens) → scores.length = batch →
    (∀ srow ∈ scores, srow.length = c.numVqTokens) →
    ∀ r ∈ gen1Loop c env sched scale ehs (some sc) thres startTemp T rem step grid scores,
      (r.grid.length = batch ∧ ∀ row ∈ r.grid, row.length = c.numVqTokens) ∧
      (∀ b item, r.fwdInput.get? b = some item →
        item.head? = sc.get? b ∧ item.length = c.numVqTokens + 1) ∧
      (∀ item ∈ r.logits, item.length = c.numVqTokens) := by
  intro rem
  induction rem with
  | zero => intro _ _ _ _ _ _ _ r hr; simp [gen1Loop] at hr
  | succ n ih =>
    intro step grid scores hlen hrows hslen hsrows r hr
    simp only [gen1Loop, List.mem_cons] at hr
    obtain ⟨h1, h2, h3, h4, h5, h6⟩ :=
      gen1Round_shape hok sched scale thres startTemp T step hsc hes hlen hrows hslen hsrows
    rcases hr with hr | hr
    · subst hr
      exact ⟨⟨h1, h2⟩, h5, h6⟩
    · exact ih (step + 1) _ _ h1 h2 h3 h4 r hr

lemma replicate_grid_length {α : Type} (n m : Nat) (x : α) :
    (List.replicate n (List.replicate m x)).length = n := by
  simp

lemma replicate_grid_rows {α : Type} (n m : Nat) (x : α) :
    ∀ row ∈ List.replicate n (List.replicate m x), row.length = m := by
  intro row hrow
  rw [List.eq_of_mem_replicate hrow]
  simp

/-- C8: when `class_ids` is supplied, at every round the shifted class id is
prepended as an extra token at sequence position 0 before the forward pass,
and the class position is stripped from the logits and the grid before
sampling, confidence scoring, and return: every forward-pass input row starts
with `class_id + codebook_size` and has `num_vq_tokens + 1` positions, the
logits used for sampling have exactly `num_vq_tokens` positions, and the
returned grid has exactly `num_vq_tokens` positions per item with every
returned id strictly below `codebook_size`. -/
theorem class_token_stripping (c : Cfg) (env : Env) (hok : EnvOK c env)
    (sched : ℚ → ℚ) (scale thres temp : ℚ) (ehs : Option (List (List ℚ)))
    (cls : List Nat) (inp : Grid) (T : Nat) (gtor : Option Nat)
    (hcb : 1 ≤ c.codebookSize) (hv : c.codebookSize < c.vocabSize) (hT : 1 ≤ T)
    (hes : ∀ es, ehs = some es → es.length = cls.length) :
    (∀ g, (generate c env (some inp) (some cls) ehs temp thres T scale sched).out =
        Except.ok (some g) →
      g.length = cls.length ∧ ∀ row ∈ g, row.length = c.numVqTokens ∧
        ∀ x ∈ row, x < c.codebookSize) ∧
    (∀ g, (generate2 c env (some inp) (some cls) ehs temp T scale sched gtor).out =
        Except.ok g →
      g.length = cls.length ∧ ∀ row ∈ g, row.length = c.numVqTokens ∧
        ∀ x ∈ row, x < c.codebookSize) ∧
    (∀ i r, (generate2Rounds c env sched scale ehs (some (classIdsAfter c cls)) T
        (allMaskGrid c cls.length) temp).get? i = some r →
      (∀ b item, r.fwdInput.get? b = some item →
        item.head? = (cls.get? b).map (· + c.codebookSize) ∧
        item.length = c.numVqTokens + 1) ∧
      ∀ item ∈ r.logits, item.length = c.numVqTokens) ∧
    (∀ i r, (generateRounds c env sched scale ehs (some (classIdsAfter c cls)) thres temp T
        (allMaskGrid c cls.length) cls.length).get? i = some r →
      (∀ b item, r.fwdInput.get? b = some item →
        item.head? = (cls.get? b).map (· + c.codebookSize) ∧
        item.length = c.numVqTokens + 1) ∧
      ∀ item ∈ r.logits, item.length = c.numVqTokens) := by
  have hT0 : ¬ T = 0 := by omega
  have hscl : (classIdsAfter c cls).length = cls.length := by simp [classIdsAfter]
  have hmask_len : (allMaskGrid c cls.length).length = cls.length := by
    rw [allMaskGrid]; exact replicate_grid_length _ _ _
  have hmask_rows : ∀ row ∈ allMaskGrid c cls.length, row.length = c.numVqTokens := by
    rw [allMaskGrid]; exact replicate_grid_rows _ _ _
  have hhead : ∀ b, (classIdsAfter c cls).get? b = (cls.get? b).map (· + c.codebookSize) := by
    intro b
    rw [classIdsAfter, List.get?_map]
  refine ⟨?_, ?_, ?_, ?_⟩
  · intro g hg
    rw [generate] at hg
    simp only [batchOf, if_neg hT0, Option.isSome_some, if_true, Option.map_some'] at hg
    rcases hlast : (generateRounds c env sched scale ehs (some (classIdsAfter c cls))
        thres temp T (allMaskGrid c cls.length) cls.length).getLast? with _ | r
    · rw [List.getLast?_eq_none] at hlast
      obtain ⟨n, hn⟩ := Nat.exists_eq_succ_of_ne_zero hT0
      rw [generateRounds, hn] at hlast
      exact absurd hlast (gen1Loop_ne_nil c env sched scale ehs _ thres temp _ n 0 _ _)
    · rw [hlast] at hg
      simp only [Except.ok.injEq, Option.some.injEq] at hg
      subst hg
      have hr : r ∈ generateRounds c env sched scale ehs (some (classIdsAfter c cls))
          thres temp T (allMaskGrid c cls.length) cls.length := mem_of_getLast? hlast
      rw [generateRounds] at hr
      have hshape := gen1Loop_shape hok hscl hes T 0 _ _ hmask_len hmask_rows
        (replicate_grid_length _ _ _) (replicate_grid_rows _ _ _) r hr
      have hval := gen1Loop_grid hok hcb hv sched scale ehs _ thres temp T T 0 _ _
        (allMaskGrid_le c cls.length) r hr
      exact ⟨hshape.1.1, fun rw2 hrw2 => ⟨hshape.1.2 rw2 hrw2, hval rw2 hrw2⟩⟩
  · intro g hg
    rw [generate2] at hg
    simp only [batchOf, if_neg hT0, Option.map_some'] at hg
    rcases hlast : (generate2Rounds c env sched scale ehs (some (classIdsAfter c cls)) T
        (allMaskGrid c cls.length) temp).getLast? with _ | r
    · rw [List.getLast?_eq_none] at hlast
      obtain ⟨n, hn⟩ := Nat.exists_eq_succ_of_ne_zero hT0
      rw [generate2Rounds, hn] at hlast
      exact absurd hlast (gen2Loop_ne_nil c env sched scale ehs _ _ n 0 _ _)
    · rw [hlast] at hg
      simp only [Except.ok.injEq] at hg
      subst hg
      have hr : r ∈ generate2Rounds c env sched scale ehs (some (classIdsAfter c cls)) T
          (allMaskGrid c cls.length) temp := mem_of_getLast? hlast
      rw [generate2Rounds] at hr
      have hshape := gen2Loop_shape hok hscl hes T 0 _ _ hmask_len hmask_rows r hr
      have hval := gen2Loop_sampled hok hcb hv sched scale ehs _ T T 0 _ _
        (allMaskGrid_le c cls.length) r hr
      exact ⟨hshape.1.1, fun rw2 hrw2 => ⟨hshape.1.2 rw2 hrw2, hval rw2 hrw2⟩⟩
  · intro i r hi
    have hr : r ∈ generate2Rounds c env sched scale ehs (some (classIdsAfter c cls)) T
        (allMaskGrid c cls.length) temp := List.get?_mem hi
    rw [generate2Rounds] at hr
    have hshape := gen2Loop_shape hok hscl hes T 0 _ _ hmask_len hmask_rows r hr
    refine ⟨?_, hshape.2.2⟩
    intro b item hb
    obtain ⟨h1, h2⟩ := hshape.2.1 b item hb
    exact ⟨h1.trans (hhead b), h2⟩
  · intro i r hi
    have hr : r ∈ generateRounds c env sched scale ehs (some (classIdsAfter c cls))
        thres temp T (allMaskGrid c cls.length) cls.length := List.get?_mem hi
    rw [generateRounds] at hr
    have hshape := gen1Loop_shape hok hscl hes T 0 _ _ hmask_len hmask_rows
      (replicate_grid_length _ _ _) (replicate_grid_rows _ _ _) r hr
    refine ⟨?_, hshape.2.2⟩
    intro b item hb
    obtain ⟨h1, h2⟩ := hshape.2.1 b item hb
    exact ⟨h1.trans (hhead b), h2⟩

/-- Witness for C8 at a concrete one-round class-conditioned call. -/
theorem class_token_stripping_wit :
    ([0] : List Nat).length = cfgA.numVqTokens ∧ (0 : Nat) < cfgA.codebookSize := by
  have h := (class_token_stripping cfgA envA envA_ok schedLin 0 (9/10) 1 none [0] [[9]] 1
    none (by decide) (by decide) (by decide)
    (fun es hes => Option.noConfusion hes)).2.1 [[0]] genAeval2
  have h2 := h.2 [0] (by simp)
  exact ⟨h2.1, h2.2 0 (by simp)⟩

end Muse
